import Mathlib

/-!
Shallow embedding of the two state machines of `src/src/app/page.tsx`
(leeys951006/survival): the countdown "defuse" timer (component `DefuseTab`)
and the "domination" tug-of-war bar (component `DominationTab`).

Numbers: the source uses JS numbers; we model the domination quantities with
`ℚ` (exact arithmetic) and the countdown seconds with `ℤ`.  Timestamps are in
milliseconds, as produced by `performance.now()` in the source; the tick code
divides by 1000 to obtain seconds.

Operations are modelled at the level of the user-triggerable events of the
page: a button that the source renders as `disabled` (or does not render at
all) cannot fire its handler, so the corresponding event is the identity on
the state in exactly the states where the source disables (or omits) the
button.  Each guard is embedded from the concrete `disabled={...}` expression
or conditional-render expression of the source, with the line cited at the
definition.
-/

namespace Survival

/-- Terminal outcome of the countdown.  The source keeps two booleans
`showExploded` / `showDisarmed`; `outcomeOf` below maps them to this type. -/
inductive Outcome
  | NONE
  | EXPIRED
  | DISARMED
  deriving DecidableEq, Repr

/-- State of `DefuseTab` (page.tsx lines 92-101): `totalSeconds`, `timeLeft`,
`isRunning`, `showSetup`, `showExploded`, `showDisarmed`, `disarmMode`, and the
nine disarm switches `pressed` (source: `Array(9).fill(false)`). -/
structure DefuseState where
  totalSeconds : ℤ
  timeLeft : ℤ
  isRunning : Bool
  showSetup : Bool
  showExploded : Bool
  showDisarmed : Bool
  disarmMode : Bool
  pressed : List Bool
  deriving DecidableEq, Repr

/-- Initial `DefuseTab` state (page.tsx lines 92-101: all counters 0, flags
false except `showSetup`, switches all unpressed). -/
def defuseInit : DefuseState :=
  ⟨0, 0, false, true, false, false, false, List.replicate 9 false⟩

/-- Outcome read off the two modal flags: `showExploded` is set only by the
expiry branch of the tick, `showDisarmed` only by a successful disarm. -/
def outcomeOf (σ : DefuseState) : Outcome :=
  if σ.showExploded then Outcome.EXPIRED
  else if σ.showDisarmed then Outcome.DISARMED
  else Outcome.NONE

/-- Integer clamp, from `clampInt` (page.tsx lines 1039-1042); the NaN branch
cannot arise for `ℤ` inputs. -/
def clampInt (n lo hi : ℤ) : ℤ := max lo (min hi n)

/-- Body of `applySetup(seconds)` (page.tsx lines 315-324): set both duration
fields, close every modal, stop the timer, leave disarm mode and clear the
switches. -/
def applySetup (seconds : ℤ) (σ : DefuseState) : DefuseState :=
  { σ with
    totalSeconds := seconds
    timeLeft := seconds
    showSetup := false
    showExploded := false
    showDisarmed := false
    isRunning := false
    disarmMode := false
    pressed := List.replicate 9 false }

/-- The configuration pipeline: the `TimeSetupModal` submit handler (page.tsx
lines 822-831) rejects a non-positive total (`if (total <= 0) { setError(...);
return; }`) and otherwise calls `applySetup(total)`.  `total` here stands for
the already-clamped `minutes * 60 + seconds` of the submit handler. -/
def configure (total : ℤ) (σ : DefuseState) : DefuseState :=
  if total ≤ 0 then σ else applySetup total σ

/-- Full `TimeSetupModal` submit (page.tsx lines 822-831): clamp minutes to
`[0, 999]` and seconds to `[0, 59]`, then run `configure` on the total. -/
def submitSetup (m s : ℤ) (σ : DefuseState) : DefuseState :=
  configure (clampInt m 0 999 * 60 + clampInt s 0 59) σ

/-- `startTimer` (page.tsx lines 326-330): bail out when `timeLeft <= 0`,
otherwise set `isRunning` (the `ensureAudio()` call is a pure side effect). -/
def startTimer (σ : DefuseState) : DefuseState :=
  if σ.timeLeft ≤ 0 then σ else { σ with isRunning := true }

/-- The `disabled` expression of the 시작 (start) button (page.tsx lines
409-411): `isRunning || timeLeft <= 0 || showExploded || showDisarmed`. -/
def startDisabled (σ : DefuseState) : Bool :=
  σ.isRunning || decide (σ.timeLeft ≤ 0) || σ.showExploded || σ.showDisarmed

/-- The user-level start event: the button fires `startTimer` only when not
disabled (page.tsx lines 407-414). -/
def startButton (σ : DefuseState) : DefuseState :=
  if startDisabled σ then σ else startTimer σ

/-- `pressed.every(Boolean)` (page.tsx line 338). -/
def allPressed (σ : DefuseState) : Bool := σ.pressed.all id

/-- `toggleDisarm` (page.tsx lines 332-356): the first invocation clears the
switches and enters disarm mode; a second invocation checks `allPressed` and
either succeeds (stop timer, leave disarm mode, show the disarmed modal) or
leaves the state unchanged (the failure branch only shakes the panel, vibrates
and beeps). -/
def toggleDisarm (σ : DefuseState) : DefuseState :=
  if σ.disarmMode = false then
    { σ with pressed := List.replicate 9 false, disarmMode := true }
  else if allPressed σ then
    { σ with isRunning := false, disarmMode := false, showDisarmed := true }
  else σ

/-- The `disabled` expression of the 해제 (disarm) button (page.tsx line 418):
`showExploded || showDisarmed || totalSeconds === 0`. -/
def disarmDisabled (σ : DefuseState) : Bool :=
  σ.showExploded || σ.showDisarmed || decide (σ.totalSeconds = 0)

/-- The user-level disarm event: the button fires `toggleDisarm` only when not
disabled (page.tsx lines 416-426). -/
def disarmButton (σ : DefuseState) : DefuseState :=
  if disarmDisabled σ then σ else toggleDisarm σ

/-- `pressPad(i)` (page.tsx lines 358-367): `if (prev[i]) return prev` (an
absent entry is falsy, hence `getD i false`), otherwise copy the array with
entry `i` set to true. -/
def pressPad (i : ℕ) (σ : DefuseState) : DefuseState :=
  if σ.pressed.getD i false then σ
  else { σ with pressed := σ.pressed.set i true }

/-- The user-level pad-press event: the 3×3 pad grid is rendered only while
`disarmMode` holds (page.tsx line 429, `{disarmMode && ...}`) and its buttons
carry indices `0..8` (line 438, `Array.from({ length: 9 })`), so the event is
the identity when the puzzle is inactive or the index is out of range. -/
def pressButton (i : ℕ) (σ : DefuseState) : DefuseState :=
  if σ.disarmMode = true ∧ i < 9 then pressPad i σ else σ

/-- Body of the countdown interval callback (page.tsx lines 283-299): with
`prev <= 1` expire (zero the clock, stop, cancel the puzzle attempt, show the
explosion); otherwise decrement.  The sound and vibration calls are pure side
effects. -/
def defuseTickBody (σ : DefuseState) : DefuseState :=
  if σ.timeLeft ≤ 1 then
    { σ with timeLeft := 0, isRunning := false, disarmMode := false, showExploded := true }
  else { σ with timeLeft := σ.timeLeft - 1 }

/-- User-level / scheduler-level events of `DefuseTab`. -/
inductive DefuseEvent
  | configure (m s : ℤ)
  | start
  | tick
  | disarm
  | press (i : ℕ)

/-- One event step.  The interval is installed only while `isRunning` (page.tsx
lines 277-302: the effect returns early and clears the interval when
`isRunning` is false), so a tick event in a non-running state is the
identity. -/
def defuseStep (e : DefuseEvent) (σ : DefuseState) : DefuseState :=
  match e with
  | DefuseEvent.configure m s => submitSetup m s σ
  | DefuseEvent.start => startButton σ
  | DefuseEvent.tick => if σ.isRunning then defuseTickBody σ else σ
  | DefuseEvent.disarm => disarmButton σ
  | DefuseEvent.press i => pressButton i σ

/-- Run a list of events from an arbitrary state. -/
def runDefuseFrom (σ : DefuseState) (es : List DefuseEvent) : DefuseState :=
  es.foldl (fun σ e => defuseStep e σ) σ

/-- Run a list of events from the initial `DefuseTab` state. -/
def runDefuse (es : List DefuseEvent) : DefuseState :=
  runDefuseFrom defuseInit es

/-- The two sides of the domination bar (`"red" | "blue"` in the source;
red is SIDE_A, blue is SIDE_B). -/
inductive Side
  | red
  | blue
  deriving DecidableEq, Repr

/-- State of `DominationTab` (page.tsx lines 594-602): the signed progress
`value`, the pushing side `active` (`null` = none), the seconds-to-100%
`fillTimeSec`, and the last integration timestamp `lastTick` (ms, `null`
initially). -/
structure DomState where
  value : ℚ
  active : Option Side
  fillTimeSec : ℚ
  lastTick : Option ℚ
  deriving DecidableEq, Repr

/-- Initial `DominationTab` state (page.tsx lines 594-602). -/
def domInit : DomState := ⟨0, none, 60, none⟩

/-- The clamp of the tick and kick code (page.tsx lines 633-634 and 660-661):
`if (next > 100) next = 100; if (next < -100) next = -100;`. -/
def clamp100 (x : ℚ) : ℚ :=
  if x > 100 then 100 else if x < -100 then -100 else x

/-- Integration direction (page.tsx line 630): `+1` for red, `-1` for blue. -/
def dirOf : Side → ℚ
  | Side.red => 1
  | Side.blue => -1

/-- `stepPerSec = 100 / Math.max(1, fillTimeRef.current)` (page.tsx line
629). -/
def stepPerSec (fill : ℚ) : ℚ := 100 / max 1 fill

/-- Body of the domination interval callback (page.tsx lines 618-648), with
`now` in milliseconds: when no side is active only the timestamp is refreshed;
otherwise integrate `dt = max(0, (now - last) / 1000)` seconds at the current
rate, clamp, stamp the timestamp, and auto-pause on full capture
(`next >= 100` for red, `next <= -100` for blue).  A `null` timestamp is first
replaced by `now` (line 625), making `dt = 0`. -/
def domTick (now : ℚ) (σ : DomState) : DomState :=
  match σ.active with
  | none => { σ with lastTick := some now }
  | some side =>
    let last := σ.lastTick.getD now
    let dt := max 0 ((now - last) / 1000)
    let next := clamp100 (σ.value + dirOf side * stepPerSec σ.fillTimeSec * dt)
    let active' : Option Side :=
      if (side = Side.red ∧ 100 ≤ next) ∨ (side = Side.blue ∧ next ≤ -100)
      then none else some side
    { σ with value := next, lastTick := some now, active := active' }

/-- `setActiveAndKick(side)` (page.tsx lines 653-666): store the side; when it
is non-null additionally advance `value` by 60 ms worth of progress
(`kickDt = 0.06`) at the current rate, clamped, and stamp the timestamp. -/
def setActiveAndKick (now : ℚ) (side : Option Side) (σ : DomState) : DomState :=
  match side with
  | none => { σ with active := none }
  | some s =>
    let next := clamp100 (σ.value + dirOf s * stepPerSec σ.fillTimeSec * 0.06)
    { σ with active := some s, value := next, lastTick := some now }

/-- The fill-time input handler (page.tsx lines 704-708):
`Math.max(1, Math.min(3600, x))` for the parsed numeric value `x`. -/
def setFillTime (x : ℚ) (σ : DomState) : DomState :=
  { σ with fillTimeSec := max 1 (min 3600 x) }

/-- `handleReset` (page.tsx lines 684-689): `setActiveAndKick(null)` (no kick),
then zero the value and stamp the timestamp. -/
def domReset (now : ℚ) (σ : DomState) : DomState :=
  { setActiveAndKick now none σ with value := 0, lastTick := some now }

/-- User-level / scheduler-level events of `DominationTab`. -/
inductive DomEvent
  | tick (now : ℚ)
  | set (now : ℚ) (side : Option Side)
  | setFill (x : ℚ)
  | reset (now : ℚ)

/-- One event step of the domination engine. -/
def domStep (e : DomEvent) (σ : DomState) : DomState :=
  match e with
  | DomEvent.tick now => domTick now σ
  | DomEvent.set now side => setActiveAndKick now side σ
  | DomEvent.setFill x => setFillTime x σ
  | DomEvent.reset now => domReset now σ

/-- Run a list of domination events from an arbitrary state. -/
def runDomFrom (σ : DomState) (es : List DomEvent) : DomState :=
  es.foldl (fun σ e => domStep e σ) σ

/-- Run a list of domination events from the initial state. -/
def runDom (es : List DomEvent) : DomState :=
  runDomFrom domInit es

/-! ### Helper lemmas about the clamp -/

lemma clamp100_le (x : ℚ) : clamp100 x ≤ 100 := by
  unfold clamp100
  split_ifs <;> linarith

lemma neg_le_clamp100 (x : ℚ) : -100 ≤ clamp100 x := by
  unfold clamp100
  split_ifs <;> linarith

/-- The source's pair of one-sided ifs is the usual two-sided clamp. -/
lemma clamp100_eq_max_min (x : ℚ) : clamp100 x = max (-100) (min 100 x) := by
  unfold clamp100
  split_ifs with h1 h2
  · rw [min_eq_left h1.le]
    norm_num
  · rw [min_eq_right (by linarith : x ≤ 100), max_eq_left (by linarith : x ≤ -100)]
  · rw [min_eq_right (by linarith : x ≤ 100), max_eq_right (by linarith : (-100 : ℚ) ≤ x)]

/-- The clamp is odd: the two bounds are symmetric. -/
lemma clamp100_neg (x : ℚ) : clamp100 (-x) = -clamp100 x := by
  unfold clamp100
  split_ifs <;> linarith

/-! ### Boundedness of the domination value -/

/-- Every single domination event keeps `value` inside `[-100, 100]`. -/
lemma domStep_bounded (e : DomEvent) (σ : DomState)
    (h : -100 ≤ σ.value ∧ σ.value ≤ 100) :
    -100 ≤ (domStep e σ).value ∧ (domStep e σ).value ≤ 100 := by
  cases e with
  | tick now =>
    show -100 ≤ (domTick now σ).value ∧ (domTick now σ).value ≤ 100
    unfold domTick
    cases σ.active with
    | none => exact h
    | some side => exact ⟨neg_le_clamp100 _, clamp100_le _⟩
  | set now side =>
    show -100 ≤ (setActiveAndKick now side σ).value ∧ _
    unfold setActiveAndKick
    cases side with
    | none => exact h
    | some s => exact ⟨neg_le_clamp100 _, clamp100_le _⟩
  | setFill x => exact h
  | reset now => norm_num [domStep, domReset, setActiveAndKick]

lemma runDomFrom_bounded (es : List DomEvent) (σ : DomState)
    (h : -100 ≤ σ.value ∧ σ.value ≤ 100) :
    -100 ≤ (runDomFrom σ es).value ∧ (runDomFrom σ es).value ≤ 100 := by
  induction es generalizing σ with
  | nil => exact h
  | cons e es ih => exact ih (domStep e σ) (domStep_bounded e σ h)

lemma clamp100_of_ge (x : ℚ) (h : 100 ≤ x) : clamp100 x = 100 := by
  unfold clamp100
  split_ifs <;> linarith

lemma clamp100_of_le (x : ℚ) (h : x ≤ -100) : clamp100 x = -100 := by
  unfold clamp100
  split_ifs <;> linarith

/-- The integration rate is nonnegative. -/
lemma stepPerSec_nonneg (fill : ℚ) : 0 ≤ stepPerSec fill := by
  unfold stepPerSec
  positivity

/-! ### Claim theorems for the domination engine -/

/-- C3: for every sequence of setActor, tick, setFillDuration and reset calls
starting from the initial state, the domination `value` stays within
`[-100, 100]` at every observation point. -/
theorem C3_domination_boundedness (es : List DomEvent) :
    -100 ≤ (runDom es).value ∧ (runDom es).value ≤ 100 :=
  runDomFrom_bounded es domInit (by norm_num [domInit])

/-- C2: a domination tick with no actor only refreshes the timestamp; with an
actor it integrates `dt = max 0 ((now - last) / 1000)` seconds at rate
`100 / fillDuration` in the actor's direction, clamps into `[-100, 100]`,
stamps the timestamp, and clears the actor exactly when the value reaches the
bound matching the actor's direction (`100 * dirOf side`).  Timestamps are in
milliseconds, as in the source. -/
theorem C2_domination_tick_contract (σ : DomState) (now t : ℚ) :
    (σ.active = none → domTick now σ = { σ with lastTick := some now })
    ∧ (∀ side, σ.active = some side → σ.lastTick = some t → 1 ≤ σ.fillTimeSec →
        (domTick now σ).value =
          max (-100)
            (min 100 (σ.value + dirOf side * (100 / σ.fillTimeSec) * max 0 ((now - t) / 1000)))
        ∧ (domTick now σ).lastTick = some now
        ∧ (domTick now σ).fillTimeSec = σ.fillTimeSec
        ∧ ((domTick now σ).active = none ↔ (domTick now σ).value = 100 * dirOf side)) := by
  obtain ⟨v, a, f, l⟩ := σ
  constructor
  · intro h
    simp only at h
    rw [h]
    rfl
  · intro side hA hL hF
    simp only at hA hL hF
    subst hA hL
    have hmax : max 1 f = f := max_eq_right hF
    have hval : (domTick now ⟨v, some side, f, some t⟩).value
        = clamp100 (v + dirOf side * stepPerSec f * max 0 ((now - t) / 1000)) := rfl
    have hle := clamp100_le (v + dirOf side * stepPerSec f * max 0 ((now - t) / 1000))
    have hge := neg_le_clamp100 (v + dirOf side * stepPerSec f * max 0 ((now - t) / 1000))
    refine ⟨?_, rfl, rfl, ?_⟩
    · rw [hval, clamp100_eq_max_min, stepPerSec, hmax]
    · have hact : (domTick now ⟨v, some side, f, some t⟩).active
          = if (side = Side.red ∧
                100 ≤ clamp100 (v + dirOf side * stepPerSec f * max 0 ((now - t) / 1000)))
              ∨ (side = Side.blue ∧
                clamp100 (v + dirOf side * stepPerSec f * max 0 ((now - t) / 1000)) ≤ -100)
            then none else some side := rfl
      rw [hact, hval]
      cases side with
      | red =>
        have hcond : ((Side.red = Side.red ∧
              100 ≤ clamp100 (v + dirOf Side.red * stepPerSec f * max 0 ((now - t) / 1000)))
            ∨ (Side.red = Side.blue ∧
              clamp100 (v + dirOf Side.red * stepPerSec f * max 0 ((now - t) / 1000)) ≤ -100))
            ↔ 100 ≤ clamp100 (v + dirOf Side.red * stepPerSec f * max 0 ((now - t) / 1000)) := by
          constructor
          · rintro (⟨-, h⟩ | ⟨h, -⟩)
            · exact h
            · exact absurd h (by decide)
          · intro h
            exact Or.inl ⟨rfl, h⟩
        rw [if_congr hcond rfl rfl]
        by_cases hy :
            100 ≤ clamp100 (v + dirOf Side.red * stepPerSec f * max 0 ((now - t) / 1000))
        · rw [if_pos hy]
          have h100 : clamp100 (v + dirOf Side.red * stepPerSec f * max 0 ((now - t) / 1000))
              = 100 * dirOf Side.red := by
            have : (100 : ℚ) * dirOf Side.red = 100 := by norm_num [dirOf]
            rw [this]
            exact le_antisymm hle hy
          exact ⟨fun _ => h100, fun _ => rfl⟩
        · rw [if_neg hy]
          constructor
          · intro h
            exact absurd h (by simp)
          · intro h
            refine absurd ?_ hy
            rw [h]
            norm_num [dirOf]
      | blue =>
        have hcond : ((Side.blue = Side.red ∧
              100 ≤ clamp100 (v + dirOf Side.blue * stepPerSec f * max 0 ((now - t) / 1000)))
            ∨ (Side.blue = Side.blue ∧
              clamp100 (v + dirOf Side.blue * stepPerSec f * max 0 ((now - t) / 1000)) ≤ -100))
            ↔ clamp100 (v + dirOf Side.blue * stepPerSec f * max 0 ((now - t) / 1000)) ≤ -100 := by
          constructor
          · rintro (⟨h, -⟩ | ⟨-, h⟩)
            · exact absurd h (by decide)
            · exact h
          · intro h
            exact Or.inr ⟨rfl, h⟩
        rw [if_congr hcond rfl rfl]
        by_cases hy :
            clamp100 (v + dirOf Side.blue * stepPerSec f * max 0 ((now - t) / 1000)) ≤ -100
        · rw [if_pos hy]
          have h100 : clamp100 (v + dirOf Side.blue * stepPerSec f * max 0 ((now - t) / 1000))
              = 100 * dirOf Side.blue := by
            have : (100 : ℚ) * dirOf Side.blue = -100 := by norm_num [dirOf]
            rw [this]
            exact le_antisymm hy hge
          exact ⟨fun _ => h100, fun _ => rfl⟩
        · rw [if_neg hy]
          constructor
          · intro h
            exact absurd h (by simp)
          · intro h
            refine absurd ?_ hy
            rw [h]
            norm_num [dirOf]

/-- C2 witness: a concrete tick with the actor set.  From `value = 0`, red
active, `fillDuration = 10` and a 10-second elapsed interval the tick drives
the value to the bound and clears the actor. -/
theorem C2_domination_tick_contract_witness :
    (domTick 10000 ⟨0, some Side.red, 10, some 0⟩).value =
      max (-100) (min 100 (0 + dirOf Side.red * (100 / 10) * max 0 ((10000 - 0) / 1000)))
    ∧ (domTick 10000 ⟨0, some Side.red, 10, some 0⟩).active = none := by
  have h := (C2_domination_tick_contract ⟨0, some Side.red, 10, some 0⟩ 10000 0).2
    Side.red rfl rfl (by norm_num)
  refine ⟨h.1, ?_⟩
  rw [h.2.2.2, h.1]
  norm_num [dirOf]

/-- C7: `setActiveAndKick` with a non-null side stores the side, advances the
value by 60 ms worth of progress at the current rate
(`dirOf s * (100 / fillDuration) * 0.06`), clamped into `[-100, 100]`, and
stamps the timestamp; with a null side it only clears the actor, leaving the
value and timestamp unchanged. -/
theorem C7_domination_kick_contract (σ : DomState) (now : ℚ) :
    (∀ s : Side, 1 ≤ σ.fillTimeSec →
      setActiveAndKick now (some s) σ =
        { σ with
          active := some s
          value := max (-100) (min 100 (σ.value + dirOf s * (100 / σ.fillTimeSec) * 0.06))
          lastTick := some now })
    ∧ setActiveAndKick now none σ = { σ with active := none } := by
  refine ⟨fun s hF => ?_, rfl⟩
  have hmax : max 1 σ.fillTimeSec = σ.fillTimeSec := max_eq_right hF
  show { σ with
      active := some s
      value := clamp100 (σ.value + dirOf s * stepPerSec σ.fillTimeSec * 0.06)
      lastTick := some now } = _
  rw [clamp100_eq_max_min, stepPerSec, hmax]

/-- C7 witness: the kick from the initial state (value 0, fill time 60 s)
moves the value to `100/60 * 0.06 = 1/10` and stores red. -/
theorem C7_domination_kick_contract_witness :
    1 ≤ domInit.fillTimeSec
    ∧ setActiveAndKick 7 (some Side.red) domInit = ⟨1 / 10, some Side.red, 60, some 7⟩
    ∧ setActiveAndKick 7 none domInit = domInit := by
  refine ⟨by norm_num [domInit], ?_, (C7_domination_kick_contract domInit 7).2⟩
  rw [(C7_domination_kick_contract domInit 7).1 Side.red (by norm_num [domInit])]
  show ({ value := _, active := _, fillTimeSec := _, lastTick := _ } : DomState) = _
  norm_num [domInit, dirOf]

/-- C10: the two sides are mirror images.  A tick with blue active from value
`v` produces the negation of the value a tick with red active produces from
`-v` (all other inputs equal), the auto-pause triggers in exactly the mirrored
cases, and the kicks of `setActiveAndKick` mirror likewise. -/
theorem C10_red_blue_mirror (v fill : ℚ) (stamp : Option ℚ) (now : ℚ) (a : Option Side) :
    ((domTick now ⟨v, some Side.blue, fill, stamp⟩).value
      = -(domTick now ⟨-v, some Side.red, fill, stamp⟩).value)
    ∧ ((domTick now ⟨v, some Side.blue, fill, stamp⟩).active = none
      ↔ (domTick now ⟨-v, some Side.red, fill, stamp⟩).active = none)
    ∧ ((setActiveAndKick now (some Side.blue) ⟨v, a, fill, stamp⟩).value
      = -(setActiveAndKick now (some Side.red) ⟨-v, a, fill, stamp⟩).value) := by
  have key : ∀ w : ℚ, -v + dirOf Side.red * stepPerSec fill * w
      = -(v + dirOf Side.blue * stepPerSec fill * w) := by
    intro w
    simp only [dirOf]
    ring
  have hmirror : ∀ w : ℚ,
      clamp100 (-v + dirOf Side.red * stepPerSec fill * w)
      = -clamp100 (v + dirOf Side.blue * stepPerSec fill * w) := by
    intro w
    rw [key, clamp100_neg]
  refine ⟨?_, ?_, ?_⟩
  · show clamp100 (v + dirOf Side.blue * stepPerSec fill *
        max 0 ((now - stamp.getD now) / 1000))
      = -clamp100 (-v + dirOf Side.red * stepPerSec fill *
        max 0 ((now - stamp.getD now) / 1000))
    rw [hmirror, neg_neg]
  · show (if (Side.blue = Side.red ∧ 100 ≤ clamp100 (v + dirOf Side.blue * stepPerSec fill *
          max 0 ((now - stamp.getD now) / 1000)))
        ∨ (Side.blue = Side.blue ∧ clamp100 (v + dirOf Side.blue * stepPerSec fill *
          max 0 ((now - stamp.getD now) / 1000)) ≤ -100)
        then (none : Option Side) else some Side.blue) = none
      ↔ (if (Side.red = Side.red ∧ 100 ≤ clamp100 (-v + dirOf Side.red * stepPerSec fill *
          max 0 ((now - stamp.getD now) / 1000)))
        ∨ (Side.red = Side.blue ∧ clamp100 (-v + dirOf Side.red * stepPerSec fill *
          max 0 ((now - stamp.getD now) / 1000)) ≤ -100)
        then (none : Option Side) else some Side.red) = none
    rw [hmirror]
    constructor
    · intro h
      rcases ite_eq_iff.mp h with ⟨hc, -⟩ | ⟨-, hbad⟩
      · rcases hc with ⟨hc, -⟩ | ⟨-, hb⟩
        · exact absurd hc (by decide)
        · rw [if_pos (Or.inl ⟨rfl, by linarith⟩)]
      · exact absurd hbad (by simp)
    · intro h
      rcases ite_eq_iff.mp h with ⟨hc, -⟩ | ⟨-, hbad⟩
      · rcases hc with ⟨-, hb⟩ | ⟨hc, -⟩
        · rw [if_pos (Or.inr ⟨rfl, by linarith⟩)]
        · exact absurd hc (by decide)
      · exact absurd hbad (by simp)
  · show clamp100 (v + dirOf Side.blue * stepPerSec fill * 0.06)
      = -clamp100 (-v + dirOf Side.red * stepPerSec fill * 0.06)
    rw [hmirror, neg_neg]

/-- C6 counterexample: a reachable state in which the domination value sits at
the bound `+100` while the actor is still red.  With fill time 100 s a red run
reaches value 99; setting fill time to 1 s and pressing red again applies a
kick of `100 * 0.06 = 6`, which clamps to 100, and `setActiveAndKick` does not
clear the actor — only the next tick would. -/
theorem C6_actor_at_bound_counterexample :
    (runDom [DomEvent.setFill 100, DomEvent.set 0 (some Side.red), DomEvent.tick 98940,
      DomEvent.setFill 1, DomEvent.set 98940 (some Side.red)]).value = 100
    ∧ (runDom [DomEvent.setFill 100, DomEvent.set 0 (some Side.red), DomEvent.tick 98940,
      DomEvent.setFill 1, DomEvent.set 98940 (some Side.red)]).active = some Side.red := by
  norm_num [runDom, runDomFrom, domStep, domTick, setActiveAndKick, setFillTime, domInit,
    clamp100, stepPerSec, dirOf]

/-- C6 (amended): a tick whose resulting value reaches the bound matching the
actor's direction clears the actor, and a tick starting from a value already
at that bound clears the actor as well; the `setActiveAndKick` kick, however,
never clears the actor, even when it clamps the value to a bound. -/
theorem C6_actor_cleared_by_tick (σ : DomState) (now : ℚ) :
    (∀ side, σ.active = some side →
      (domTick now σ).value = 100 * dirOf side → (domTick now σ).active = none)
    ∧ (∀ s : Side, (setActiveAndKick now (some s) σ).active = some s)
    ∧ (∀ side, σ.active = some side →
      σ.value = 100 * dirOf side → (domTick now σ).active = none) := by
  obtain ⟨v, a, f, l⟩ := σ
  have hval : ∀ side, (domTick now ⟨v, some side, f, l⟩).value
      = clamp100 (v + dirOf side * stepPerSec f * max 0 ((now - l.getD now) / 1000)) := by
    intro side
    rfl
  have hact : ∀ side, (domTick now ⟨v, some side, f, l⟩).active
      = if (side = Side.red ∧ 100 ≤ clamp100 (v + dirOf side * stepPerSec f *
            max 0 ((now - l.getD now) / 1000)))
          ∨ (side = Side.blue ∧ clamp100 (v + dirOf side * stepPerSec f *
            max 0 ((now - l.getD now) / 1000)) ≤ -100)
        then none else some side := by
    intro side
    rfl
  have hstep : 0 ≤ stepPerSec f * max 0 ((now - l.getD now) / 1000) :=
    mul_nonneg (stepPerSec_nonneg f) (le_max_left 0 _)
  refine ⟨?_, fun s => rfl, ?_⟩
  · intro side hA hV
    simp only at hA
    cases hA
    rw [hval] at hV
    rw [hact]
    cases side with
    | red =>
      rw [if_pos (Or.inl ⟨rfl, by rw [hV]; norm_num [dirOf]⟩)]
    | blue =>
      rw [if_pos (Or.inr ⟨rfl, by rw [hV]; norm_num [dirOf]⟩)]
  · intro side hA hV
    simp only at hA hV
    cases hA
    rw [hact]
    cases side with
    | red =>
      have hv : v = 100 := by
        rw [hV]
        norm_num [dirOf]
      refine if_pos (Or.inl ⟨rfl, ?_⟩)
      rw [clamp100_of_ge]
      rw [hv]
      simp only [dirOf]
      linarith [hstep]
    | blue =>
      have hv : v = -100 := by
        rw [hV]
        norm_num [dirOf]
      refine if_pos (Or.inr ⟨rfl, ?_⟩)
      rw [clamp100_of_le]
      rw [hv]
      simp only [dirOf]
      linarith [hstep]

/-- C6 (amended) witness: with red active and value already at 100 (fill 60,
stale timestamp 0), a tick at time 50 clears the actor, while a red kick from
the same value leaves the actor set. -/
theorem C6_actor_cleared_by_tick_witness :
    (domTick 50 ⟨100, some Side.red, 60, some 0⟩).active = none
    ∧ (setActiveAndKick 50 (some Side.red) ⟨100, none, 60, some 0⟩).active = some Side.red := by
  refine ⟨?_, (C6_actor_cleared_by_tick ⟨100, none, 60, some 0⟩ 50).2.1 Side.red⟩
  exact (C6_actor_cleared_by_tick ⟨100, some Side.red, 60, some 0⟩ 50).2.2 Side.red rfl
    (by norm_num [dirOf])

/-! ### Helper lemmas for the switch list -/

/-- Setting an entry that already holds `true` leaves the list unchanged
(the `if (prev[i]) return prev` short-circuit of `pressPad` therefore agrees
with the copying branch). -/
lemma set_eq_self_of_getD (l : List Bool) (i : ℕ) (h : l.getD i false = true) :
    l.set i true = l := by
  induction l generalizing i with
  | nil => rfl
  | cons b l ih =>
    cases i with
    | zero =>
      simp only [List.getD_cons_zero] at h
      simp [h]
    | succ n =>
      simp only [List.getD_cons_succ] at h
      simp [ih n h]

/-- Reading back an in-range entry just written. -/
lemma getD_set_self (l : List Bool) (i : ℕ) (a : Bool) (h : i < l.length) :
    (l.set i a).getD i false = a := by
  induction l generalizing i with
  | nil => exact absurd h (by simp)
  | cons b l ih =>
    cases i with
    | zero => rfl
    | succ n =>
      simp only [List.length_cons, Nat.succ_lt_succ_iff] at h
      simpa using ih n h

/-! ### The countdown running invariant -/

/-- Invariant of `DefuseTab`: while the timer runs, no terminal modal is shown
and at least one second remains. -/
def defuseInv (σ : DefuseState) : Prop :=
  σ.isRunning = true →
    σ.showExploded = false ∧ σ.showDisarmed = false ∧ 1 ≤ σ.timeLeft

lemma defuseInv_applySetup (t : ℤ) (σ : DefuseState) : defuseInv (applySetup t σ) := by
  intro hr
  simp [applySetup] at hr

lemma defuseStep_inv (e : DefuseEvent) (σ : DefuseState) (h : defuseInv σ) :
    defuseInv (defuseStep e σ) := by
  cases e with
  | configure m s =>
    show defuseInv (submitSetup m s σ)
    unfold submitSetup configure
    split_ifs
    · exact h
    · exact defuseInv_applySetup _ σ
  | start =>
    show defuseInv (startButton σ)
    unfold startButton
    split_ifs with hd
    · exact h
    · simp only [startDisabled, Bool.or_eq_true, decide_eq_true_eq, not_or,
        Bool.not_eq_true] at hd
      unfold startTimer
      split_ifs
      · exact h
      · intro _
        refine ⟨hd.1.2, hd.2, ?_⟩
        have htl := hd.1.1.2
        show (1 : ℤ) ≤ σ.timeLeft
        omega
  | tick =>
    show defuseInv (if σ.isRunning = true then defuseTickBody σ else σ)
    split_ifs with hr
    · obtain ⟨hE, hD, hT⟩ := h hr
      unfold defuseTickBody
      split_ifs with ht
      · intro hr2
        simp at hr2
      · intro _
        refine ⟨hE, hD, ?_⟩
        show (1 : ℤ) ≤ σ.timeLeft - 1
        omega
    · exact h
  | disarm =>
    show defuseInv (disarmButton σ)
    unfold disarmButton
    split_ifs with hd
    · exact h
    · unfold toggleDisarm
      split_ifs
      · intro hr
        exact h hr
      · intro hr
        simp at hr
      · exact h
  | press i =>
    show defuseInv (pressButton i σ)
    unfold pressButton pressPad
    split_ifs
    · exact h
    · intro hr
      exact h hr
    · exact h

lemma runDefuseFrom_inv (es : List DefuseEvent) (σ : DefuseState) (h : defuseInv σ) :
    defuseInv (runDefuseFrom σ es) := by
  induction es generalizing σ with
  | nil => exact h
  | cons e es ih => exact ih (defuseStep e σ) (defuseStep_inv e σ h)

/-! ### Claim theorems for the countdown engine -/

/-- C1: while running, a tick with at most one second left zeroes the clock,
stops the timer, cancels any disarm attempt and shows the explosion; a tick
with more than one second left only decrements the clock.  In the example
scenario `configure(5); start()` the fourth tick leaves one second running and
the fifth expires the countdown. -/
theorem C1_countdown_tick_contract :
    (∀ σ : DefuseState, σ.isRunning = true →
      (σ.timeLeft ≤ 1 →
        defuseStep DefuseEvent.tick σ =
          { σ with timeLeft := 0, isRunning := false, disarmMode := false, showExploded := true })
      ∧ (1 < σ.timeLeft →
        defuseStep DefuseEvent.tick σ = { σ with timeLeft := σ.timeLeft - 1 }))
    ∧ ((runDefuse [DefuseEvent.configure 0 5, DefuseEvent.start, DefuseEvent.tick,
        DefuseEvent.tick, DefuseEvent.tick, DefuseEvent.tick]).timeLeft = 1
      ∧ (runDefuse [DefuseEvent.configure 0 5, DefuseEvent.start, DefuseEvent.tick,
        DefuseEvent.tick, DefuseEvent.tick, DefuseEvent.tick]).isRunning = true
      ∧ (runDefuse [DefuseEvent.configure 0 5, DefuseEvent.start, DefuseEvent.tick,
        DefuseEvent.tick, DefuseEvent.tick, DefuseEvent.tick, DefuseEvent.tick]).timeLeft = 0
      ∧ (runDefuse [DefuseEvent.configure 0 5, DefuseEvent.start, DefuseEvent.tick,
        DefuseEvent.tick, DefuseEvent.tick, DefuseEvent.tick, DefuseEvent.tick]).isRunning = false
      ∧ outcomeOf (runDefuse [DefuseEvent.configure 0 5, DefuseEvent.start, DefuseEvent.tick,
        DefuseEvent.tick, DefuseEvent.tick, DefuseEvent.tick, DefuseEvent.tick])
        = Outcome.EXPIRED) := by
  constructor
  · intro σ hr
    show (σ.timeLeft ≤ 1 → (if σ.isRunning = true then defuseTickBody σ else σ) = _)
      ∧ (1 < σ.timeLeft → (if σ.isRunning = true then defuseTickBody σ else σ) = _)
    rw [if_pos hr]
    unfold defuseTickBody
    constructor
    · intro h1
      rw [if_pos h1]
    · intro h2
      rw [if_neg (by linarith)]
  · exact ⟨by decide, by decide, by decide, by decide, by decide⟩

/-- C1 witness: the expiry tick from one remaining second (with a disarm
attempt active, which it cancels), and a plain decrement tick from three. -/
theorem C1_countdown_tick_contract_witness :
    defuseStep DefuseEvent.tick ⟨5, 1, true, false, false, false, true, List.replicate 9 false⟩
      = ⟨5, 0, false, false, true, false, false, List.replicate 9 false⟩
    ∧ defuseStep DefuseEvent.tick ⟨5, 3, true, false, false, false, false, List.replicate 9 false⟩
      = ⟨5, 2, true, false, false, false, false, List.replicate 9 false⟩ := by
  constructor
  · rw [(C1_countdown_tick_contract.1 _ rfl).1 (by decide)]
  · rw [(C1_countdown_tick_contract.1 _ rfl).2 (by decide)]
    decide

/-- C5: in every state reachable by configure, start, tick and disarm events,
the timer is stopped whenever the outcome is terminal or no time remains; the
start event sets `isRunning` only from a state with time left and no outcome,
and is the identity in every other state (in particular after a disarm with
time remaining, where the 시작 button is disabled). -/
theorem C5_countdown_running_invariant :
    (∀ es : List DefuseEvent,
      outcomeOf (runDefuse es) ≠ Outcome.NONE ∨ (runDefuse es).timeLeft = 0 →
      (runDefuse es).isRunning = false)
    ∧ (∀ σ : DefuseState, (startButton σ).isRunning = true →
      σ.isRunning = true ∨ (0 < σ.timeLeft ∧ outcomeOf σ = Outcome.NONE))
    ∧ (∀ σ : DefuseState, outcomeOf σ ≠ Outcome.NONE ∨ σ.timeLeft ≤ 0 →
      startButton σ = σ) := by
  refine ⟨?_, ?_, ?_⟩
  · intro es h
    have hinv : defuseInv (runDefuse es) :=
      runDefuseFrom_inv es defuseInit (by intro hr; simp [defuseInit] at hr)
    cases hb : (runDefuse es).isRunning with
    | false => rfl
    | true =>
      obtain ⟨hE, hD, hT⟩ := hinv hb
      rcases h with h | h
      · exact absurd (by simp [outcomeOf, hE, hD]) h
      · exact absurd h (by omega)
  · intro σ h
    unfold startButton at h
    by_cases hd : startDisabled σ = true
    · rw [if_pos hd] at h
      exact Or.inl h
    · simp only [startDisabled, Bool.or_eq_true, decide_eq_true_eq, not_or,
        Bool.not_eq_true] at hd
      right
      have htl := hd.1.1.2
      exact ⟨by omega, by simp [outcomeOf, hd.1.2, hd.2]⟩
  · intro σ h
    unfold startButton
    by_cases hd : startDisabled σ = true
    · rw [if_pos hd]
    · exfalso
      simp only [startDisabled, Bool.or_eq_true, decide_eq_true_eq, not_or,
        Bool.not_eq_true] at hd
      rcases h with h | h
      · exact h (by simp [outcomeOf, hd.1.2, hd.2])
      · exact hd.1.1.2 h

/-- C5 witness: the empty run already satisfies the invariant (no time
remains), and the start event is the identity on a disarmed state with five
seconds left. -/
theorem C5_countdown_running_invariant_witness :
    (runDefuse []).isRunning = false
    ∧ startButton ⟨5, 5, false, false, false, true, false, List.replicate 9 true⟩
      = ⟨5, 5, false, false, false, true, false, List.replicate 9 true⟩ :=
  ⟨C5_countdown_running_invariant.1 [] (Or.inr (by decide)),
    C5_countdown_running_invariant.2.2 _ (Or.inl (by decide))⟩

/-- C4: from a state with no outcome and an active disarm attempt, the
confirming disarm press succeeds exactly when all nine switches are pressed —
stopping the timer, leaving disarm mode and showing the disarmed modal — and
is the identity on the state otherwise. -/
theorem C4_disarm_confirm_contract (σ : DefuseState)
    (hO : outcomeOf σ = Outcome.NONE) (hM : σ.disarmMode = true) :
    (allPressed σ = true →
      toggleDisarm σ =
        { σ with isRunning := false, disarmMode := false, showDisarmed := true }
      ∧ outcomeOf (toggleDisarm σ) = Outcome.DISARMED
      ∧ (toggleDisarm σ).isRunning = false)
    ∧ (allPressed σ = false → toggleDisarm σ = σ) := by
  have hE : σ.showExploded = false := by
    by_contra hc
    simp only [Bool.not_eq_false] at hc
    simp [outcomeOf, hc] at hO
  constructor
  · intro hall
    have ht : toggleDisarm σ =
        { σ with isRunning := false, disarmMode := false, showDisarmed := true } := by
      unfold toggleDisarm
      rw [if_neg (by simp [hM]), if_pos hall]
    refine ⟨ht, ?_, by rw [ht]⟩
    rw [ht]
    simp [outcomeOf, hE]
  · intro hfail
    unfold toggleDisarm
    rw [if_neg (by simp [hM]), if_neg (by simp [hfail])]

/-- C4 witness: the confirm press on a running five-second countdown with all
nine switches pressed disarms it; with the first switch unpressed it changes
nothing. -/
theorem C4_disarm_confirm_contract_witness :
    toggleDisarm ⟨5, 5, true, false, false, false, true, List.replicate 9 true⟩
      = ⟨5, 5, false, false, false, true, false, List.replicate 9 true⟩
    ∧ toggleDisarm ⟨5, 5, true, false, false, false, true, false :: List.replicate 8 true⟩
      = ⟨5, 5, true, false, false, false, true, false :: List.replicate 8 true⟩ := by
  constructor
  · rw [((C4_disarm_confirm_contract _ (by decide) rfl).1 (by decide)).1]
  · rw [(C4_disarm_confirm_contract _ (by decide) rfl).2 (by decide)]

/-- C8: a pad press is the identity when the puzzle is inactive or the index
is out of range (the pad buttons are not rendered then); on an active puzzle
with an in-range index it sets the switch to true, and pressing the same pad
twice equals pressing it once. -/
theorem C8_puzzle_press_contract (σ : DefuseState) (i : ℕ) :
    (σ.disarmMode = false ∨ 9 ≤ i → pressButton i σ = σ)
    ∧ (σ.disarmMode = true → i < 9 → σ.pressed.length = 9 →
      pressButton i σ = { σ with pressed := σ.pressed.set i true }
      ∧ (pressButton i σ).pressed.getD i false = true
      ∧ pressButton i (pressButton i σ) = pressButton i σ) := by
  constructor
  · intro h
    unfold pressButton
    rw [if_neg]
    rintro ⟨hm, hi⟩
    rcases h with h | h
    · rw [h] at hm
      exact Bool.noConfusion hm
    · omega
  · intro hM hi h9
    have hcond : σ.disarmMode = true ∧ i < 9 := ⟨hM, hi⟩
    have hpb : pressButton i σ = pressPad i σ := by
      unfold pressButton
      rw [if_pos hcond]
    by_cases hp : σ.pressed.getD i false = true
    · have hself : σ.pressed.set i true = σ.pressed := set_eq_self_of_getD _ _ hp
      have hfix : pressButton i σ = σ := by
        rw [hpb]
        unfold pressPad
        rw [if_pos hp]
      refine ⟨?_, ?_, ?_⟩
      · rw [hfix, hself]
      · rw [hfix]
        exact hp
      · rw [hfix]
        exact hfix
    · have hfix : pressButton i σ = { σ with pressed := σ.pressed.set i true } := by
        rw [hpb]
        unfold pressPad
        rw [if_neg hp]
      have hgd : (σ.pressed.set i true).getD i false = true :=
        getD_set_self _ _ _ (h9 ▸ hi)
      refine ⟨hfix, ?_, ?_⟩
      · rw [hfix]
        exact hgd
      · rw [hfix]
        have hcond2 : ({ σ with pressed := σ.pressed.set i true } : DefuseState).disarmMode = true
            ∧ i < 9 := ⟨hM, hi⟩
        unfold pressButton
        rw [if_pos hcond2]
        unfold pressPad
        rw [if_pos hgd]

/-- C8 witness: on an active puzzle, pressing pad 0 sets its switch and a
second press changes nothing; with the puzzle inactive the press is the
identity. -/
theorem C8_puzzle_press_contract_witness :
    pressButton 0 ⟨5, 5, false, false, false, false, true, List.replicate 9 false⟩
      = ⟨5, 5, false, false, false, false, true,
        (List.replicate 9 false).set 0 true⟩
    ∧ pressButton 0 (pressButton 0 ⟨5, 5, false, false, false, false, true,
        List.replicate 9 false⟩)
      = pressButton 0 ⟨5, 5, false, false, false, false, true, List.replicate 9 false⟩
    ∧ pressButton 0 ⟨5, 5, false, false, false, false, false, List.replicate 9 false⟩
      = ⟨5, 5, false, false, false, false, false, List.replicate 9 false⟩ := by
  refine ⟨?_, ?_, ?_⟩
  · exact ((C8_puzzle_press_contract _ 0).2 rfl (by omega) (by decide)).1
  · exact ((C8_puzzle_press_contract _ 0).2 rfl (by omega) (by decide)).2.2
  · exact (C8_puzzle_press_contract _ 0).1 (Or.inl rfl)

/-- C9: the configuration pipeline applies a positive total duration to both
duration fields, stops the timer, clears both terminal modals and resets the
disarm puzzle; a non-positive total is rejected with the state unchanged.  The
modal submit handler is exactly this pipeline after clamping minutes and
seconds. -/
theorem C9_configure_contract (σ : DefuseState) (d : ℤ) :
    (0 < d →
      configure d σ =
        { σ with
          totalSeconds := d
          timeLeft := d
          showSetup := false
          showExploded := false
          showDisarmed := false
          isRunning := false
          disarmMode := false
          pressed := List.replicate 9 false }
      ∧ outcomeOf (configure d σ) = Outcome.NONE
      ∧ (configure d σ).isRunning = false)
    ∧ (d ≤ 0 → configure d σ = σ)
    ∧ (∀ m s : ℤ, submitSetup m s σ = configure (clampInt m 0 999 * 60 + clampInt s 0 59) σ) := by
  refine ⟨fun hd => ?_, fun hd => ?_, fun m s => rfl⟩
  · have hc : configure d σ = applySetup d σ := by
      unfold configure
      rw [if_neg (by linarith)]
    refine ⟨hc, ?_, by rw [hc]; rfl⟩
    rw [hc]
    simp [outcomeOf, applySetup]
  · unfold configure
    rw [if_pos hd]

/-- C9 witness: configuring five seconds from a cluttered state resets
everything; configuring zero changes nothing.  The submit handler with one
minute below zero and seconds 5 clamps to the same call. -/
theorem C9_configure_contract_witness :
    configure 5 ⟨3, 2, true, false, true, false, true, List.replicate 9 true⟩
      = ⟨5, 5, false, false, false, false, false, List.replicate 9 false⟩
    ∧ configure 0 ⟨3, 2, true, false, true, false, true, List.replicate 9 true⟩
      = ⟨3, 2, true, false, true, false, true, List.replicate 9 true⟩
    ∧ submitSetup 0 5 ⟨3, 2, true, false, true, false, true, List.replicate 9 true⟩
      = configure 5 ⟨3, 2, true, false, true, false, true, List.replicate 9 true⟩ := by
  refine ⟨?_, ?_, ?_⟩
  · rw [((C9_configure_contract
      ⟨3, 2, true, false, true, false, true, List.replicate 9 true⟩ 5).1 (by omega)).1]
  · exact (C9_configure_contract
      ⟨3, 2, true, false, true, false, true, List.replicate 9 true⟩ 0).2.1 (by omega)
  · rw [(C9_configure_contract
      ⟨3, 2, true, false, true, false, true, List.replicate 9 true⟩ 5).2.2 0 5]
    decide

end Survival
